import Mathlib

/-!
Verification of the DDPM / VAE numeric core (ddpm.py and vae/vae.py).

Tensors are modelled as real-valued functions: an image batch is a function
from the batch index and a per-image pixel index to a real number, so that
the framework's elementwise operations (add, mul, sub, div) become the
pointwise operations on functions, and broadcasting a per-batch vector is
the function that ignores the pixel index.  Floating-point arithmetic is
modelled by exact real arithmetic.  Tensor indexing with an integer index
follows the framework's semantics: a negative index `i` with `-N ≤ i < 0`
reads entry `N + i`.
-/

/-- A batch of images: `Fin B` indexes the batch dimension, `ι` the remaining
(channel × height × width) index.  Mirrors the `ImageBatch` tensor type of
ddpm.py; elementwise tensor arithmetic is the pointwise arithmetic of
functions. -/
abbrev ImageBatch (B : ℕ) (ι : Type) := Fin B → ι → ℝ

/-- Integer noise level per batch element (the `NoiseLevel` tensor type,
documented in ddpm.py as an integer between 0 and N - 1). -/
abbrev NoiseLevel (B : ℕ) := Fin B → ℕ

/-- The pixel index of the MNIST-shaped tensors produced by `DDPM.sample`:
shape (1, 28, 28) after the batch dimension. -/
abbrev MnistIdx := Fin 1 × Fin 28 × Fin 28

/-- `batch_broadcast(a, b)` of ddpm.py: reshape the length-B vector `a` so that
it broadcasts along all non-batch dimensions of `b`.  The second argument only
contributes its shape; the result is constant in the pixel index. -/
def batch_broadcast {B : ℕ} {ι : Type} (a : Fin B → ℝ) (_x : ImageBatch B ι) :
    ImageBatch B ι :=
  fun b _ => a b

/-- Elementwise `torch.sqrt` on an image batch. -/
noncomputable def tsqrt {B : ℕ} {ι : Type} (x : ImageBatch B ι) : ImageBatch B ι :=
  fun b i => Real.sqrt (x b i)

/-- Indexing a length-`N` buffer `v` with a (possibly negative) integer index,
with the framework's wrap-around semantics: for `-N ≤ i < 0` the entry
`N + i` is read.  (`Int.emod` realises exactly this wrap for `-N ≤ i < N`.) -/
def torchGet (N : ℕ) (v : ℕ → ℝ) (i : ℤ) : ℝ :=
  v (Int.toNat (i % (N : ℤ)))

/-- `torch.linspace a b N`: `N` points from `a` to `b` inclusive; a single
point equals `a`.  (For `N = 0` the tensor is empty and no entry is read.) -/
noncomputable def linspace (a b : ℝ) (N i : ℕ) : ℝ :=
  if N ≤ 1 then a else a + i * ((b - a) / ((N : ℝ) - 1))

/-- `beta_start = 1e-4` from `DDPM.__init__`. -/
noncomputable def beta_start : ℝ := 1 / 10000

/-- `beta_end = 2e-2` from `DDPM.__init__`. -/
noncomputable def beta_end : ℝ := 2 / 100

/-- `beta = torch.linspace(beta_start, beta_end, N)` from `DDPM.__init__`. -/
noncomputable def DDPM.beta (N n : ℕ) : ℝ :=
  linspace beta_start beta_end N n

/-- `alpha = 1 - beta` from `DDPM.__init__`. -/
noncomputable def DDPM.alpha (N n : ℕ) : ℝ :=
  1 - DDPM.beta N n

/-- `alpha_bar = torch.cumprod(alpha, dim=0)` from `DDPM.__init__`:
`alpha_bar[n] = alpha[0] * ... * alpha[n]`. -/
noncomputable def DDPM.alpha_bar (N n : ℕ) : ℝ :=
  ∏ i ∈ Finset.range (n + 1), DDPM.alpha N i

/-- `numerator_shifted = 1 - torch.cat((torch.ones(1), alpha_bar[:-1]))` from
`DDPM.__init__`: entry 0 is `1 - 1`, entry `n > 0` is `1 - alpha_bar[n-1]`. -/
noncomputable def DDPM.numerator_shifted (N n : ℕ) : ℝ :=
  1 - (if n = 0 then 1 else DDPM.alpha_bar N (n - 1))

/-- The `beta_tilde` buffer of `DDPM.__init__` after both statements
`beta_tilde = beta * (numerator_shifted / (1 - alpha_bar))` and the in-place
overwrite `beta_tilde[0] = beta[0]`. -/
noncomputable def DDPM.beta_tilde (N n : ℕ) : ℝ :=
  if n = 0 then DDPM.beta N 0
  else DDPM.beta N n * (DDPM.numerator_shifted N n / (1 - DDPM.alpha_bar N n))

/-- The noisy sample built at lines 213-215 of `DDPM.simplified_loss`:
`z_n = batch_broadcast(alpha_bar[n], x0) * x0` followed by
`z_n += batch_broadcast(torch.sqrt(1 - alpha_bar[n]), epsilon) * epsilon`. -/
noncomputable def forwardNoise {B : ℕ} {ι : Type} (N : ℕ) (x0 : ImageBatch B ι)
    (n : NoiseLevel B) (epsilon : ImageBatch B ι) : ImageBatch B ι :=
  batch_broadcast (fun b => DDPM.alpha_bar N (n b)) x0 * x0
    + batch_broadcast (fun b => Real.sqrt (1 - DDPM.alpha_bar N (n b))) epsilon * epsilon

/-- `DDPM.simplified_loss` with the denoising network abstracted as `model`:
build `z_n` from `(x0, n, epsilon)`, predict `epsilon_theta = model(z_n, n/N)`,
return the fully reduced sum of squared errors. -/
noncomputable def DDPM.simplified_loss {B : ℕ} {ι : Type} [Fintype ι] (N : ℕ)
    (model : ImageBatch B ι → (Fin B → ℝ) → ImageBatch B ι)
    (x0 : ImageBatch B ι) (n : NoiseLevel B) (epsilon : ImageBatch B ι) : ℝ :=
  let norm_n : Fin B → ℝ := fun b => (n b : ℝ) / (N : ℝ)
  let z_n := forwardNoise N x0 n epsilon
  let epsilon_theta := model z_n norm_n
  ∑ b, ∑ i, (epsilon b i - epsilon_theta b i) ^ 2

/-- `DDPM.estimate_x0` (lines 246-248):
`(z_n - torch.sqrt(1 - broadcasted_alpha_bar_n) * epsilon)
   / torch.sqrt(broadcasted_alpha_bar_n)`. -/
noncomputable def DDPM.estimate_x0 {B : ℕ} {ι : Type} (N : ℕ) (z_n : ImageBatch B ι)
    (n : NoiseLevel B) (epsilon : ImageBatch B ι) : ImageBatch B ι :=
  let broadcasted_alpha_bar_n := batch_broadcast (fun b => DDPM.alpha_bar N (n b)) z_n
  (z_n - tsqrt (1 - broadcasted_alpha_bar_n) * epsilon) / tsqrt broadcasted_alpha_bar_n

/-- `DDPM.sample_z_n_previous` (lines 268-272), with the Gaussian draw
`torch.normal(mean=mu, std=broadcasted_beta_tilde)` modelled in reparameterised
form as `mu + std * u` for a unit-normal input `u`.  The schedule reads
`alpha_bar[n - 1]` through integer tensor indexing (`torchGet`), which wraps
negative indices. -/
noncomputable def DDPM.sample_z_n_previous {B : ℕ} {ι : Type} (N : ℕ)
    (x0 z_n : ImageBatch B ι) (n : NoiseLevel B) (u : ImageBatch B ι) :
    ImageBatch B ι :=
  let mu1 := z_n * batch_broadcast (fun b =>
    (Real.sqrt (DDPM.alpha N (n b)) * (1 - torchGet N (DDPM.alpha_bar N) ((n b : ℤ) - 1)))
      / (1 - DDPM.alpha_bar N (n b))) z_n
  let mu := mu1 + x0 * batch_broadcast (fun b =>
    (Real.sqrt (torchGet N (DDPM.alpha_bar N) ((n b : ℤ) - 1)) * DDPM.beta N (n b))
      / (1 - DDPM.alpha_bar N (n b))) x0
  mu + batch_broadcast (fun b => DDPM.beta_tilde N (n b)) z_n * u

/-- The loop body of `DDPM.sample` (lines 292-304), recursing over the current
noise level `n`: predict the noise from `(z_n, n/N)`, reconstruct `x0` with
`estimate_x0`; at `n = 0` the loop breaks and returns `x0`, otherwise it
samples `z_{n-1}` and continues.  `u n` is the unit-normal input consumed by
the Gaussian draw at level `n`. -/
noncomputable def DDPM.sampleLoop {B : ℕ} {ι : Type} (N : ℕ)
    (model : ImageBatch B ι → (Fin B → ℝ) → ImageBatch B ι)
    (u : ℕ → ImageBatch B ι) : ℕ → ImageBatch B ι → ImageBatch B ι
  | 0, z_n =>
      DDPM.estimate_x0 N z_n (fun _ => 0) (model z_n (fun _ => ((0 : ℕ) : ℝ) / (N : ℝ)))
  | m + 1, z_n =>
      let predicted_noise := model z_n (fun _ => ((m + 1 : ℕ) : ℝ) / (N : ℝ))
      let x0 := DDPM.estimate_x0 N z_n (fun _ => m + 1) predicted_noise
      DDPM.sampleLoop N model u m
        (DDPM.sample_z_n_previous N x0 z_n (fun _ => m + 1) (u (m + 1)))

/-- `DDPM.sample`: iterate the denoising loop from level `N - 1` down to `0`
starting from the initial standard-normal tensor `z_init` of shape
(batch_size, 1, 28, 28).  For `N = 0` the Python loop body never runs and the
final `return x0` fails on an unbound name, modelled as `none`. -/
noncomputable def DDPM.sample {B : ℕ} (N : ℕ)
    (model : ImageBatch B MnistIdx → (Fin B → ℝ) → ImageBatch B MnistIdx)
    (u : ℕ → ImageBatch B MnistIdx) (z_init : ImageBatch B MnistIdx) :
    Option (ImageBatch B MnistIdx) :=
  if N = 0 then none else some (DDPM.sampleLoop N model u (N - 1) z_init)

/-- The two denoising-network architectures `DDPM.__init__` can construct. -/
inductive DenoiserArch
  | resnet
  | unet
deriving DecidableEq

/-- The network-construction part of `DDPM.__init__` (lines 165-172) together
with the `n_layers <= 2` assertion that `MiniUnet.__init__` (line 79) performs
when the "unet" branch constructs it; `ResNet.__init__` performs no check.
Unknown strings hit the trailing `raise RuntimeError`. -/
def DDPM.selectModel (type : String) (n_layers : ℕ) : Except String DenoiserArch :=
  if type = "resnet" then Except.ok DenoiserArch.resnet
  else if type = "unet" then
    if n_layers ≤ 2 then Except.ok DenoiserArch.unet
    else Except.error
      "MNIST images can only be downsampled twice without taking care of padding issues"
  else Except.error ("Unknown model type " ++ type)

/-- `VAE.kl_divergence` (vae.py lines 63-67): per batch element,
`0.5 * torch.sum(sigma_squared + mu_squared - log_sigma_squared - 1, 1)` with
`log_sigma_squared = logsigma + logsigma` and
`sigma_squared = torch.exp(log_sigma_squared)`. -/
noncomputable def VAE.kl_divergence {B L : ℕ} (mu logsigma : Fin B → Fin L → ℝ) :
    Fin B → ℝ :=
  let log_sigma_squared := logsigma + logsigma
  let sigma_squared : Fin B → Fin L → ℝ := fun b j => Real.exp (log_sigma_squared b j)
  let mu_squared := mu * mu
  fun b => (1 / 2) * ∑ j, (sigma_squared b j + mu_squared b j - log_sigma_squared b j - 1)

/-- Whether `DDPM.__init__` gets past network construction without raising,
as a Boolean on the embedded `DDPM.selectModel`. -/
def constructorOk (type : String) (n_layers : ℕ) : Bool :=
  match DDPM.selectModel type n_layers with
  | Except.ok _ => true
  | Except.error _ => false

/-- Claim C3: `estimate_x0` returns
`(z_n - sqrt(1 - alpha_bar[n]) * epsilon) / sqrt(alpha_bar[n])`, with the
schedule scalars broadcast over the batch dimension. -/
theorem estimate_x0_spec {B : ℕ} {ι : Type} (N : ℕ) (z_n : ImageBatch B ι)
    (n : NoiseLevel B) (epsilon : ImageBatch B ι) (h : ∀ b, n b < N) (b : Fin B) (i : ι) :
    DDPM.estimate_x0 N z_n n epsilon b i =
      (z_n b i - Real.sqrt (1 - DDPM.alpha_bar N (n b)) * epsilon b i)
        / Real.sqrt (DDPM.alpha_bar N (n b)) := rfl

/-- Witness for C3 at N = 1, a one-pixel batch of one image, z_n ≡ 1, ε ≡ 0. -/
theorem estimate_x0_spec_witness :
    DDPM.estimate_x0 (B := 1) (ι := Fin 1) 1 1 (fun _ => 0) 0 0 0 =
      ((1 : ImageBatch 1 (Fin 1)) 0 0 - Real.sqrt (1 - DDPM.alpha_bar 1 0) *
          (0 : ImageBatch 1 (Fin 1)) 0 0) / Real.sqrt (DDPM.alpha_bar 1 0) :=
  estimate_x0_spec 1 1 (fun _ => 0) 0 (fun _ => Nat.zero_lt_one) 0 0

/-- Claim C1 fails on the code (code bug): with N = 1, x0 ≡ 1, ε ≡ 0, n ≡ 0,
feeding the z_n built by `simplified_loss` into `estimate_x0` together with
the true ε returns `sqrt(9999/10000)` at every pixel, not x0 = 1: the forward
map multiplies x0 by `alpha_bar[n]` while the reconstruction divides by
`sqrt(alpha_bar[n])`. -/
theorem estimate_x0_not_inverse :
    DDPM.estimate_x0 (B := 1) (ι := Fin 1) 1 (forwardNoise 1 1 (fun _ => 0) 0)
        (fun _ => 0) 0 0 0 = Real.sqrt (9999 / 10000) ∧
      Real.sqrt (9999 / 10000) ≠ (1 : ℝ) := by
  have h1 : DDPM.alpha_bar 1 0 = 9999 / 10000 := by
    simp [DDPM.alpha_bar, DDPM.alpha, DDPM.beta, linspace, beta_start]
    norm_num
  constructor
  · have h2 : DDPM.estimate_x0 (B := 1) (ι := Fin 1) 1 (forwardNoise 1 1 (fun _ => 0) 0)
        (fun _ => 0) 0 0 0 = DDPM.alpha_bar 1 0 / Real.sqrt (DDPM.alpha_bar 1 0) := by
      simp [DDPM.estimate_x0, forwardNoise, tsqrt, batch_broadcast]
    rw [h2, h1, Real.div_sqrt]
  · rw [Ne, Real.sqrt_eq_one]
    norm_num

/-- Claim C2 fails on the code (code bug): at N = 1, x0 ≡ 1, ε ≡ 0, n ≡ 0, the
z_n built at lines 213-215 of `simplified_loss` equals `alpha_bar[0] * 1 =
9999/10000`, whereas the claimed formula
`sqrt(alpha_bar[0]) * 1 + sqrt(1 - alpha_bar[0]) * 0` differs from it: the
`sqrt` on the x0 coefficient is missing in the code. -/
theorem forwardNoise_missing_sqrt :
    forwardNoise (B := 1) (ι := Fin 1) 1 1 (fun _ => 0) 0 0 0 = 9999 / 10000 ∧
      Real.sqrt (DDPM.alpha_bar 1 0) * 1 + Real.sqrt (1 - DDPM.alpha_bar 1 0) * 0 ≠
        (9999 / 10000 : ℝ) := by
  have h1 : DDPM.alpha_bar 1 0 = 9999 / 10000 := by
    simp [DDPM.alpha_bar, DDPM.alpha, DDPM.beta, linspace, beta_start]
    norm_num
  constructor
  · simp [forwardNoise, batch_broadcast, h1]
  · rw [h1]
    have hlt : (9999 / 10000 : ℝ) < Real.sqrt (9999 / 10000) := by
      rw [Real.lt_sqrt (by norm_num)]
      norm_num
    intro hcontra
    rw [mul_zero, add_zero, mul_one] at hcontra
    exact absurd hcontra (ne_of_gt hlt)

/-- Claim C5: for every N ≥ 1, the constructed schedule has
`beta_tilde[0] = beta[0]`, and for every n with 0 < n < N,
`beta_tilde[n] = beta[n] * (1 - alpha_bar[n-1]) / (1 - alpha_bar[n])`. -/
theorem beta_tilde_spec (N n : ℕ) (hN : 1 ≤ N) (hn0 : 0 < n) (hnN : n < N) :
    DDPM.beta_tilde N 0 = DDPM.beta N 0 ∧
      DDPM.beta_tilde N n =
        DDPM.beta N n * (1 - DDPM.alpha_bar N (n - 1)) / (1 - DDPM.alpha_bar N n) := by
  refine ⟨by simp [DDPM.beta_tilde], ?_⟩
  have h : n ≠ 0 := hn0.ne'
  simp [DDPM.beta_tilde, DDPM.numerator_shifted, h, mul_div_assoc]

/-- Witness for C5 at N = 2, n = 1. -/
theorem beta_tilde_spec_witness :
    DDPM.beta_tilde 2 0 = DDPM.beta 2 0 ∧
      DDPM.beta_tilde 2 1 =
        DDPM.beta 2 1 * (1 - DDPM.alpha_bar 2 (1 - 1)) / (1 - DDPM.alpha_bar 2 1) :=
  beta_tilde_spec 2 1 (by decide) (by decide) (by decide)

/-- Claim C4 fails on the code (code bug): `torch.normal(mean=mu, std=...)`
takes a standard deviation, but the code passes `beta_tilde[n]`, the posterior
variance.  At N = 2, n ≡ 1, x0 ≡ 0, z_n ≡ 0 and unit-normal input u ≡ 1 the
returned value is `mu + beta_tilde[1] * 1 = 1/10049`, whereas a draw from a
Normal of variance `beta_tilde[1]` would be `mu + sqrt(1/10049) * 1`, and
`sqrt(1/10049) ≠ 1/10049`. -/
theorem sample_z_n_previous_std_bug :
    DDPM.sample_z_n_previous (B := 1) (ι := Fin 1) 2 0 0 (fun _ => 1) 1 0 0 =
        1 / 10049 ∧
      Real.sqrt (1 / 10049) ≠ (1 / 10049 : ℝ) := by
  have hb0 : DDPM.beta 2 0 = 1 / 10000 := by
    simp [DDPM.beta, linspace, beta_start]
  have hb1 : DDPM.beta 2 1 = 2 / 100 := by
    simp [DDPM.beta, linspace, beta_start, beta_end]
    norm_num
  have hab0 : DDPM.alpha_bar 2 0 = 9999 / 10000 := by
    simp [DDPM.alpha_bar, DDPM.alpha, hb0]
    norm_num
  have hab1 : DDPM.alpha_bar 2 1 = 489951 / 500000 := by
    simp [DDPM.alpha_bar, Finset.prod_range_succ, DDPM.alpha, hb0, hb1]
    norm_num
  have hbt : DDPM.beta_tilde 2 1 = 1 / 10049 := by
    simp [DDPM.beta_tilde, DDPM.numerator_shifted, hb1, hab0, hab1]
    norm_num
  constructor
  · have h2 : DDPM.sample_z_n_previous (B := 1) (ι := Fin 1) 2 0 0 (fun _ => 1) 1 0 0 =
        DDPM.beta_tilde 2 1 := by
      simp [DDPM.sample_z_n_previous, batch_broadcast]
    rw [h2, hbt]
  · have hlt : (1 / 10049 : ℝ) < Real.sqrt (1 / 10049) := by
      rw [Real.lt_sqrt (by norm_num)]
      norm_num
    exact ne_of_gt hlt

/-- For every in-range index, `beta[n]` lies between the two endpoints
`1e-4` and `2e-2` of the linear schedule. -/
theorem beta_mem_Icc (N n : ℕ) (hn : n < N) :
    1 / 10000 ≤ DDPM.beta N n ∧ DDPM.beta N n ≤ 2 / 100 := by
  unfold DDPM.beta linspace beta_start beta_end
  by_cases hN : N ≤ 1
  · simp [hN]
    norm_num
  · simp only [hN, if_false]
    push_neg at hN
    have hN2 : (2 : ℝ) ≤ (N : ℝ) := by exact_mod_cast hN
    have hd : (0 : ℝ) < (N : ℝ) - 1 := by linarith
    have hstep : (0 : ℝ) ≤ (2 / 100 - 1 / 10000) / ((N : ℝ) - 1) := by positivity
    have hn' : (n : ℝ) ≤ (N : ℝ) - 1 := by
      have : (n : ℝ) + 1 ≤ (N : ℝ) := by exact_mod_cast hn
      linarith
    have hmul : (n : ℝ) * ((2 / 100 - 1 / 10000) / ((N : ℝ) - 1)) ≤
        ((N : ℝ) - 1) * ((2 / 100 - 1 / 10000) / ((N : ℝ) - 1)) :=
      mul_le_mul_of_nonneg_right hn' hstep
    have heq : ((N : ℝ) - 1) * ((2 / 100 - 1 / 10000) / ((N : ℝ) - 1)) =
        2 / 100 - 1 / 10000 := by
      field_simp
      ring
    have hnn : (0 : ℝ) ≤ (n : ℝ) * ((2 / 100 - 1 / 10000) / ((N : ℝ) - 1)) :=
      mul_nonneg (Nat.cast_nonneg n) hstep
    constructor
    · linarith
    · linarith [hmul, heq]

/-- For every in-range index, `alpha[n] = 1 - beta[n]` lies between `98/100`
and `9999/10000`. -/
theorem alpha_mem_Icc (N n : ℕ) (hn : n < N) :
    98 / 100 ≤ DDPM.alpha N n ∧ DDPM.alpha N n ≤ 9999 / 10000 := by
  obtain ⟨h1, h2⟩ := beta_mem_Icc N n hn
  unfold DDPM.alpha
  constructor <;> linarith

/-- For every in-range index, the cumulative product `alpha_bar[n]` is
positive and at most one. -/
theorem alpha_bar_pos_le_one (N n : ℕ) (hn : n < N) :
    0 < DDPM.alpha_bar N n ∧ DDPM.alpha_bar N n ≤ 1 := by
  constructor
  · apply Finset.prod_pos
    intro i hi
    have hiN : i < N := lt_of_le_of_lt (Nat.lt_succ_iff.mp (Finset.mem_range.mp hi)) hn
    linarith [(alpha_mem_Icc N i hiN).1]
  · apply Finset.prod_le_one
    · intro i hi
      have hiN : i < N := lt_of_le_of_lt (Nat.lt_succ_iff.mp (Finset.mem_range.mp hi)) hn
      linarith [(alpha_mem_Icc N i hiN).1]
    · intro i hi
      have hiN : i < N := lt_of_le_of_lt (Nat.lt_succ_iff.mp (Finset.mem_range.mp hi)) hn
      linarith [(alpha_mem_Icc N i hiN).2]

/-- `alpha_bar` is non-increasing on the in-range indices. -/
theorem alpha_bar_antitone (N m n : ℕ) (hmn : m ≤ n) (hn : n < N) :
    DDPM.alpha_bar N n ≤ DDPM.alpha_bar N m := by
  induction n with
  | zero =>
      have hm : m = 0 := Nat.le_zero.mp hmn
      simp [hm]
  | succ k ih =>
      by_cases hm : m = k + 1
      · simp [hm]
      · have hmk : m ≤ k := Nat.lt_succ_iff.mp (lt_of_le_of_ne hmn hm)
        have hkN : k < N := lt_trans (Nat.lt_succ_self k) hn
        have hstep : DDPM.alpha_bar N (k + 1) ≤ DDPM.alpha_bar N k := by
          have hsucc : DDPM.alpha_bar N (k + 1) =
              DDPM.alpha_bar N k * DDPM.alpha N (k + 1) := by
            simp [DDPM.alpha_bar, Finset.prod_range_succ]
          rw [hsucc]
          have h1 := (alpha_bar_pos_le_one N k hkN).1
          have h2 := (alpha_mem_Icc N (k + 1) hn).2
          nlinarith
        exact le_trans hstep (ih hmk hkN)

/-- Claim C6: for every N ≥ 1 and all in-range indices m ≤ n < N, the
constructed schedule has `beta[n]` and `alpha[n]` strictly inside (0,1), and
`alpha_bar` non-increasing with every entry in (0,1]. -/
theorem schedule_invariants (N m n : ℕ) (hN : 1 ≤ N) (hmn : m ≤ n) (hn : n < N) :
    (0 < DDPM.beta N n ∧ DDPM.beta N n < 1) ∧
      (0 < DDPM.alpha N n ∧ DDPM.alpha N n < 1) ∧
      (0 < DDPM.alpha_bar N n ∧ DDPM.alpha_bar N n ≤ 1) ∧
      DDPM.alpha_bar N n ≤ DDPM.alpha_bar N m := by
  obtain ⟨hb1, hb2⟩ := beta_mem_Icc N n hn
  obtain ⟨ha1, ha2⟩ := alpha_mem_Icc N n hn
  obtain ⟨hab1, hab2⟩ := alpha_bar_pos_le_one N n hn
  exact ⟨⟨by linarith, by linarith⟩, ⟨by linarith, by linarith⟩, ⟨hab1, hab2⟩,
    alpha_bar_antitone N m n hmn hn⟩

/-- Witness for C6 at N = 2, m = 0, n = 1. -/
theorem schedule_invariants_witness :
    (0 < DDPM.beta 2 1 ∧ DDPM.beta 2 1 < 1) ∧
      (0 < DDPM.alpha 2 1 ∧ DDPM.alpha 2 1 < 1) ∧
      (0 < DDPM.alpha_bar 2 1 ∧ DDPM.alpha_bar 2 1 ≤ 1) ∧
      DDPM.alpha_bar 2 1 ≤ DDPM.alpha_bar 2 0 :=
  schedule_invariants 2 0 1 (by decide) (by decide) (by decide)

/-- Each per-dimension KL summand `exp(2t) + m^2 - 2t - 1` is nonnegative. -/
theorem kl_term_nonneg (m t : ℝ) :
    0 ≤ Real.exp (t + t) + m * m - (t + t) - 1 := by
  have h := Real.add_one_le_exp (t + t)
  nlinarith [mul_self_nonneg m]

/-- A per-dimension KL summand vanishes exactly at `m = 0`, `t = 0`. -/
theorem kl_term_eq_zero_iff (m t : ℝ) :
    Real.exp (t + t) + m * m - (t + t) - 1 = 0 ↔ m = 0 ∧ t = 0 := by
  constructor
  · intro h
    by_cases ht : t = 0
    · subst ht
      rw [add_zero, Real.exp_zero] at h
      refine ⟨?_, rfl⟩
      nlinarith [mul_self_nonneg m]
    · exfalso
      have htt : t + t ≠ 0 := fun h0 => ht (by linarith)
      have := Real.add_one_lt_exp htt
      nlinarith [mul_self_nonneg m]
  · rintro ⟨hm, ht⟩
    subst hm
    subst ht
    simp

/-- Claim C7: `kl_divergence` computes, per batch element, one half of the sum
over latent dimensions of `sigma^2 + mu^2 - 2*logsigma - 1` with
`sigma = exp(logsigma)`, and this value is zero iff `mu = 0` and
`logsigma = 0` in every latent dimension. -/
theorem kl_divergence_spec {B L : ℕ} (mu logsigma : Fin B → Fin L → ℝ) (b : Fin B) :
    VAE.kl_divergence mu logsigma b =
        1 / 2 * ∑ j, (Real.exp (logsigma b j) ^ 2 + mu b j ^ 2 - 2 * logsigma b j - 1) ∧
      (VAE.kl_divergence mu logsigma b = 0 ↔ ∀ j, mu b j = 0 ∧ logsigma b j = 0) := by
  have hunfold : VAE.kl_divergence mu logsigma b =
      1 / 2 * ∑ j, (Real.exp (logsigma b j + logsigma b j) + mu b j * mu b j -
        (logsigma b j + logsigma b j) - 1) := by
    simp [VAE.kl_divergence]
  have hform : ∀ j : Fin L,
      Real.exp (logsigma b j + logsigma b j) + mu b j * mu b j -
          (logsigma b j + logsigma b j) - 1 =
        Real.exp (logsigma b j) ^ 2 + mu b j ^ 2 - 2 * logsigma b j - 1 := by
    intro j
    rw [Real.exp_add]
    ring
  constructor
  · rw [hunfold]
    congr 1
    exact Finset.sum_congr rfl fun j _ => hform j
  · rw [hunfold]
    constructor
    · intro h
      have hsum : ∑ j, (Real.exp (logsigma b j + logsigma b j) + mu b j * mu b j -
          (logsigma b j + logsigma b j) - 1) = 0 := by linarith
      have hall := (Finset.sum_eq_zero_iff_of_nonneg
        (fun j _ => kl_term_nonneg (mu b j) (logsigma b j))).mp hsum
      intro j
      exact (kl_term_eq_zero_iff (mu b j) (logsigma b j)).mp (hall j (Finset.mem_univ j))
    · intro h
      have hz : ∀ j ∈ Finset.univ, (Real.exp (logsigma b j + logsigma b j) +
          mu b j * mu b j - (logsigma b j + logsigma b j) - 1) = 0 :=
        fun j _ => (kl_term_eq_zero_iff (mu b j) (logsigma b j)).mpr (h j)
      rw [Finset.sum_eq_zero hz, mul_zero]

/-- Claim C8: for every N ≥ 1, `DDPM.sample` is a total function returning a
tensor of shape (batch_size, 1, 28, 28): it runs the loop from level N - 1;
at each level m + 1 it predicts the noise from `(z, (m+1)/N)`, reconstructs
x0 with `estimate_x0` and samples the previous latent, and at level 0 it
stops and returns the x0 estimate. -/
theorem sample_spec {B : ℕ} (N m : ℕ) (hN : 1 ≤ N)
    (model : ImageBatch B MnistIdx → (Fin B → ℝ) → ImageBatch B MnistIdx)
    (u : ℕ → ImageBatch B MnistIdx) (z0 z : ImageBatch B MnistIdx) :
    DDPM.sample N model u z0 = some (DDPM.sampleLoop N model u (N - 1) z0) ∧
      DDPM.sampleLoop N model u 0 z =
        DDPM.estimate_x0 N z (fun _ => 0) (model z (fun _ => ((0 : ℕ) : ℝ) / (N : ℝ))) ∧
      DDPM.sampleLoop N model u (m + 1) z =
        DDPM.sampleLoop N model u m
          (DDPM.sample_z_n_previous N
            (DDPM.estimate_x0 N z (fun _ => m + 1)
              (model z (fun _ => ((m + 1 : ℕ) : ℝ) / (N : ℝ))))
            z (fun _ => m + 1) (u (m + 1))) := by
  have hN0 : N ≠ 0 := by omega
  exact ⟨by simp [DDPM.sample, hN0], rfl, rfl⟩

/-- Witness for C8 at N = 1, m = 0, batch size 1, with the identity network,
zero noise inputs and zero initial latent. -/
theorem sample_spec_witness :
    DDPM.sample (B := 1) 1 (fun z _ => z) (fun _ => 0) 0 =
        some (DDPM.sampleLoop 1 (fun z _ => z) (fun _ => 0) 0 0) ∧
      DDPM.sampleLoop (B := 1) (ι := MnistIdx) 1 (fun z _ => z) (fun _ => 0) 0 0 =
        DDPM.estimate_x0 1 0 (fun _ => 0) 0 ∧
      DDPM.sampleLoop (B := 1) (ι := MnistIdx) 1 (fun z _ => z) (fun _ => 0) 1 0 =
        DDPM.sampleLoop 1 (fun z _ => z) (fun _ => 0) 0
          (DDPM.sample_z_n_previous 1 (DDPM.estimate_x0 1 0 (fun _ => 1) 0) 0
            (fun _ => 1) 0) :=
  sample_spec 1 0 (by decide) (fun z _ => z) (fun _ => 0) 0 0

/-- Claim C9 as stated is false: "unet" is one of the two accepted
architecture strings, yet the constructor still raises for n_layers = 3,
through the assertion in `MiniUnet.__init__`. -/
theorem constructor_raises_counterexample :
    ¬ (∀ (type : String) (n_layers : ℕ),
        constructorOk type n_layers = true ↔ (type = "resnet" ∨ type = "unet")) := by
  intro h
  have h2 := (h "unet" 3).mpr (Or.inr rfl)
  exact absurd h2 (by decide)

/-- Claim C9 amended: the constructor raises exactly unless the type string is
"resnet", or is "unet" with n_layers ≤ 2 (the extra assertion of
`MiniUnet.__init__`); in the non-raising cases it constructs the
corresponding denoising network. -/
theorem constructor_raises_amended (type : String) (n_layers : ℕ) :
    (constructorOk type n_layers = true ↔
        (type = "resnet" ∨ (type = "unet" ∧ n_layers ≤ 2))) ∧
      DDPM.selectModel "resnet" n_layers = Except.ok DenoiserArch.resnet ∧
      DDPM.selectModel "unet" 2 = Except.ok DenoiserArch.unet := by
  refine ⟨?_, rfl, rfl⟩
  unfold constructorOk DDPM.selectModel
  split_ifs with h1 h2 h3
  · simp [h1]
  · subst h2
    simp [h1, h3]
  · subst h2
    simp [h1, h3]
  · simp [h1, h2]

/-- Witness for the amended C9 at type = "resnet", n_layers = 0. -/
theorem constructor_raises_amended_witness :
    (constructorOk "resnet" 0 = true ↔
        ("resnet" = "resnet" ∨ ("resnet" = "unet" ∧ 0 ≤ 2))) ∧
      DDPM.selectModel "resnet" 0 = Except.ok DenoiserArch.resnet ∧
      DDPM.selectModel "unet" 2 = Except.ok DenoiserArch.unet :=
  constructor_raises_amended "resnet" 0

/-- Claim C10: calling `sample_z_n_previous` with a noise-level entry equal to
0 does not fail; the index n - 1 = -1 wraps around, so `alpha_bar[n-1]`
silently reads `alpha_bar[N-1]`, the last entry of the schedule. -/
theorem sample_z_n_previous_wraps {B : ℕ} {ι : Type} (N : ℕ) (hN : 1 ≤ N)
    (x0 z_n u : ImageBatch B ι) (b : Fin B) (i : ι) :
    DDPM.sample_z_n_previous N x0 z_n (fun _ => 0) u b i =
      z_n b i * ((Real.sqrt (DDPM.alpha N 0) * (1 - DDPM.alpha_bar N (N - 1)))
          / (1 - DDPM.alpha_bar N 0))
        + x0 b i * ((Real.sqrt (DDPM.alpha_bar N (N - 1)) * DDPM.beta N 0)
          / (1 - DDPM.alpha_bar N 0))
        + DDPM.beta_tilde N 0 * u b i := by
  have hmod : (-1 : ℤ) % (N : ℤ) = (N : ℤ) - 1 := by
    have h2 : (-1 : ℤ) = ((N : ℤ) - 1) + (N : ℤ) * (-1) := by ring
    rw [h2, Int.add_mul_emod_self_left]
    apply Int.emod_eq_of_lt <;> omega
  have htn : Int.toNat ((-1 : ℤ) % (N : ℤ)) = N - 1 := by
    rw [hmod]
    omega
  simp [DDPM.sample_z_n_previous, torchGet, batch_broadcast, htn]

/-- Witness for C10 at N = 1 with zero tensors and a one-pixel image. -/
theorem sample_z_n_previous_wraps_witness :
    DDPM.sample_z_n_previous (B := 1) (ι := Fin 1) 1 0 0 (fun _ => 0) 0 0 0 =
      (0 : ImageBatch 1 (Fin 1)) 0 0 *
          ((Real.sqrt (DDPM.alpha 1 0) * (1 - DDPM.alpha_bar 1 0))
            / (1 - DDPM.alpha_bar 1 0))
        + (0 : ImageBatch 1 (Fin 1)) 0 0 *
          ((Real.sqrt (DDPM.alpha_bar 1 0) * DDPM.beta 1 0)
            / (1 - DDPM.alpha_bar 1 0))
        + DDPM.beta_tilde 1 0 * (0 : ImageBatch 1 (Fin 1)) 0 0 :=
  sample_z_n_previous_wraps 1 (by decide) 0 0 0 0 0
